import Mathlib

/-!
# Pod discovery: label synthesis and watch-action translation

A shallow embedding of `lib/promscrape/discovery/kubernetes/pod.go` and the
properties of it that the specification states.

Modelling conventions.

* A Go string is a Lean `String`; `len(s) == 0` is `s = ""`.
* A Go slice is a `Slice`: either the nil slice or a non-nil slice holding a
  list. `len`, `range` and `append` act on the underlying list, and `append`
  always returns a non-nil slice.
* A Go `map[string]string` is a `StrMap`, a finite lookup function
  `String → Option String`; `m[k] = v` is `StrMap.set`.
* A Go `int` is an `Int` (no arithmetic is performed on it, only `strconv.Itoa`).
* A pointer that may be nil is an `Option`.
* The channel `cfg.targetChan` is the list of events sent on it so far, oldest
  first; the logger is the list of warning messages reported so far.
-/

namespace Kubernetes

/-! ## Go runtime: slices, maps, strings -/

/-- Go slice: `nil` is the nil slice, `mk l` a non-nil slice holding `l`. -/
inductive Slice (α : Type) where
  | nil : Slice α
  | mk : List α → Slice α
  deriving DecidableEq, Repr

namespace Slice

/-- The elements of a slice, in order (what `range` visits). -/
def toList {α : Type} : Slice α → List α
  | nil => []
  | mk l => l

/-- Go `len(s)`. -/
def len {α : Type} (s : Slice α) : Nat := s.toList.length

/-- Go `append(s, x)`: the result is never the nil slice. -/
def append {α : Type} (s : Slice α) (x : α) : Slice α := mk (s.toList ++ [x])

end Slice

/-- Go `map[string]string`, as its lookup function. -/
abbrev StrMap := String → Option String

namespace StrMap

/-- The empty map. -/
def empty : StrMap := fun _ => none

/-- Go `m[k] = v`. -/
def set (m : StrMap) (k v : String) : StrMap :=
  fun k' => if k' = k then some v else m k'

end StrMap

/-- Go `strconv.Itoa`: decimal rendering, with a leading `-` for negatives. -/
def Itoa : Int → String
  | Int.ofNat n => Nat.repr n
  | Int.negSucc n => "-" ++ Nat.repr (n + 1)

/-- Go `strings.ToLower`, on the ASCII letters `A`-`Z` (Go additionally lower-cases
non-ASCII upper-case letters; no theorem below depends on which letters are
mapped, only the concrete examples, whose inputs are ASCII). -/
def ToLower (s : String) : String := String.mk (s.data.map Char.toLower)

/-! ## Data model (`pod.go`, lines 14-75) -/

/-- OwnerReference: kind, name and controller flag of an owner. The type is
declared outside `pod.go`; the fields are the ones `pod.go` reads. -/
structure OwnerReference where
  Name : String
  Controller : Bool
  Kind : String
  deriving DecidableEq, Repr

/-- ObjectMeta: the type is declared outside `pod.go`; the fields are the ones
`pod.go` reads, plus the label and annotation pairs handed to the pass-through. -/
structure ObjectMeta where
  Name : String
  Namespace : String
  UID : String
  Labels : List (String × String)
  Annotations : List (String × String)
  OwnerReferences : Slice OwnerReference
  deriving DecidableEq, Repr

/-- ContainerPort implements k8s container port. -/
structure ContainerPort where
  Name : String
  ContainerPort : Int
  Protocol : String
  deriving DecidableEq, Repr

/-- Container implements k8s container. -/
structure Container where
  Name : String
  Ports : Slice ContainerPort
  deriving DecidableEq, Repr

/-- PodSpec implements k8s pod spec. -/
structure PodSpec where
  NodeName : String
  Containers : Slice Container
  InitContainers : Slice Container
  deriving DecidableEq, Repr

/-- PodCondition implements k8s pod condition (`Type_` is the Go field `Type`). -/
structure PodCondition where
  Type_ : String
  Status : String
  deriving DecidableEq, Repr

/-- PodStatus implements k8s pod status. -/
structure PodStatus where
  Phase : String
  PodIP : String
  HostIP : String
  Conditions : Slice PodCondition
  deriving DecidableEq, Repr

/-- Pod implements k8s pod. -/
structure Pod where
  Metadata : ObjectMeta
  Spec : PodSpec
  Status : PodStatus
  deriving DecidableEq, Repr

/-- SyncEvent: the value sent on the target channel. The type is declared outside
`pod.go`; the fields are the ones `processPods` fills. -/
structure SyncEvent where
  Labels : Slice StrMap
  Key : String
  ConfigSectionSet : String

/-- The part of `apiConfig` that `processPods` uses: the section name and the
section's channel, held as the events sent on it so far. -/
structure apiConfig where
  setName : String
  targetChan : List SyncEvent

/-! ## Helpers of the repository that `pod.go` calls but does not define -/

/-- Modelled from the spec: `discoveryutils.JoinHostPort` is not in `pod.go`; the
spec gives the address of a port as `host:port`. -/
def JoinHostPort (host : String) (port : Int) : String :=
  host ++ ":" ++ Itoa port

/-- Modelled from the spec: `ObjectMeta.registerLabelsAndAnnotations` is not in
`pod.go`; the spec describes it as copying the caller-supplied key/value pairs,
prefixed, into the output map. Labels go under `<pfx>_label_`, annotations under
`<pfx>_annotation_`. -/
def ObjectMeta.registerLabelsAndAnnotations (om : ObjectMeta) (pfx : String)
    (m : StrMap) : StrMap :=
  let m := om.Labels.foldl (fun m lb => m.set (pfx ++ "_label_" ++ lb.1) lb.2) m
  om.Annotations.foldl (fun m a => m.set (pfx ++ "_annotation_" ++ a.1) a.2) m

/-- Modelled from the spec: `buildSyncKey` is not in `pod.go`; the spec gives the
key format `<discovery-kind>/<section-name>/<namespace>/<name>`, the last two
components being the resource-local key. -/
def buildSyncKey (kind setName key : String) : String :=
  kind ++ "/" ++ setName ++ "/" ++ key

/-- Modelled from the spec: `logger.Warnf` is not in `pod.go`; here it appends the
formatted message to the list of reported warnings. -/
def Warnf (log : List String) (msg : String) : List String := log ++ [msg]

/-! ## Label synthesis (`pod.go`, lines 31-172) -/

/-- The resource-local key of a pod, `pod.go` line 31. -/
def Pod.key (p : Pod) : String :=
  p.Metadata.Namespace ++ "/" ++ p.Metadata.Name

/-- The loop of `getPodReadyStatus` over the conditions still to visit. -/
def getPodReadyStatusLoop : List PodCondition → String
  | [] => "unknown"
  | c :: rest => if c.Type_ = "Ready" then ToLower c.Status else getPodReadyStatusLoop rest

/-- Readiness of a pod, `pod.go` line 165. -/
def getPodReadyStatus (conds : Slice PodCondition) : String :=
  getPodReadyStatusLoop conds.toList

/-- The loop of `getPodController` over the references still to visit. -/
def getPodControllerLoop : List OwnerReference → Option OwnerReference
  | [] => none
  | o :: rest => if o.Controller then some o else getPodControllerLoop rest

/-- The controlling owner reference, `pod.go` line 156. -/
def getPodController (ors : Slice OwnerReference) : Option OwnerReference :=
  getPodControllerLoop ors.toList

/-- Pod-scoped labels, `pod.go` line 136. -/
def Pod.appendCommonLabels (p : Pod) (m : StrMap) : StrMap :=
  let m := m.set "__meta_kubernetes_pod_name" p.Metadata.Name
  let m := m.set "__meta_kubernetes_pod_ip" p.Status.PodIP
  let m := m.set "__meta_kubernetes_pod_ready" (getPodReadyStatus p.Status.Conditions)
  let m := m.set "__meta_kubernetes_pod_phase" p.Status.Phase
  let m := m.set "__meta_kubernetes_pod_node_name" p.Spec.NodeName
  let m := m.set "__meta_kubernetes_pod_host_ip" p.Status.HostIP
  let m := m.set "__meta_kubernetes_pod_uid" p.Metadata.UID
  let m := m.set "__meta_kubernetes_namespace" p.Metadata.Namespace
  let m :=
    match getPodController p.Metadata.OwnerReferences with
    | some pc =>
      let m := if pc.Kind ≠ "" then m.set "__meta_kubernetes_pod_controller_kind" pc.Kind else m
      if pc.Name ≠ "" then m.set "__meta_kubernetes_pod_controller_name" pc.Name else m
    | none => m
  p.Metadata.registerLabelsAndAnnotations "__meta_kubernetes_pod" m

/-- Container- and port-scoped labels, `pod.go` line 127. -/
def Pod.appendContainerLabels (_p : Pod) (m : StrMap) (c : Container)
    (cp : Option ContainerPort) : StrMap :=
  let m := m.set "__meta_kubernetes_pod_container_name" c.Name
  match cp with
  | some cp =>
    let m := m.set "__meta_kubernetes_pod_container_port_name" cp.Name
    let m := m.set "__meta_kubernetes_pod_container_port_number" (Itoa cp.ContainerPort)
    m.set "__meta_kubernetes_pod_container_port_protocol" cp.Protocol
  | none => m

/-- The label set of one (container, port) pair, `pod.go` line 113. -/
def getPodLabels (p : Pod) (c : Container) (cp : Option ContainerPort)
    (isInit : String) : StrMap :=
  let addr := p.Status.PodIP
  let addr :=
    match cp with
    | some cp => JoinHostPort addr cp.ContainerPort
    | none => addr
  let m := (StrMap.empty.set "__address__" addr).set "__meta_kubernetes_pod_container_init" isInit
  let m := p.appendCommonLabels m
  p.appendContainerLabels m c cp

/-- The label sets of a list of containers, `pod.go` line 99. -/
def appendPodLabels (ms : Slice StrMap) (p : Pod) (cs : Slice Container)
    (isInit : String) : Slice StrMap :=
  cs.toList.foldl
    (fun ms c =>
      let ms := c.Ports.toList.foldl
        (fun ms cp => ms.append (getPodLabels p c (some cp) isInit)) ms
      if c.Ports.len = 0 then ms.append (getPodLabels p c none isInit) else ms)
    ms

/-- The label sets of a pod, appended to `ms`, `pod.go` line 89. Go's `len` of a
string counts bytes and `String.length` characters; both are zero exactly for the
empty string. -/
def Pod.appendTargetLabels (p : Pod) (ms : Slice StrMap) : Slice StrMap :=
  if p.Status.PodIP.length = 0 then
    ms
  else
    let ms := appendPodLabels ms p p.Spec.Containers "false"
    appendPodLabels ms p p.Spec.InitContainers "true"

/-! ## Watch-action translation (`pod.go`, lines 174-191) -/

/-- Sending `ev` on the section's channel. -/
def apiConfig.send (cfg : apiConfig) (ev : SyncEvent) : apiConfig :=
  { cfg with targetChan := cfg.targetChan ++ [ev] }

/-- One watch action on one pod, `pod.go` line 174: the section (with its channel)
and the reported warnings afterwards. -/
def processPods (cfg : apiConfig) (p : Pod) (action : String) (log : List String) :
    apiConfig × List String :=
  if action = "ADDED" ∨ action = "MODIFIED" then
    (cfg.send
      { Labels := p.appendTargetLabels Slice.nil
        Key := buildSyncKey "pods" cfg.setName p.key
        ConfigSectionSet := cfg.setName }, log)
  else if action = "DELETED" then
    (cfg.send
      { Labels := Slice.nil
        Key := buildSyncKey "pods" cfg.setName p.key
        ConfigSectionSet := cfg.setName }, log)
  else if action = "ERROR" then
    (cfg, log)
  else
    (cfg, Warnf log ("unexpected action: " ++ action))

/-! ## The entries of a pod, in the words of the specification -/

/-- The entries one container contributes, in order: one per declared port, or
the single port-less entry when it declares none. -/
def portEntries (c : Container) : List (Option ContainerPort) :=
  if c.Ports.len = 0 then [none] else c.Ports.toList.map some

/-- The entries of a list of containers, each tagged with the init flag. -/
def containerEntries (isInit : String) (cs : List Container) :
    List (String × Container × Option ContainerPort) :=
  cs.flatMap (fun c => (portEntries c).map (fun cp => (isInit, c, cp)))

/-- The flattened list of (init flag, container, port) entries of a pod: regular
containers in declared order, then init containers in declared order. -/
def targetEntries (p : Pod) : List (String × Container × Option ContainerPort) :=
  containerEntries "false" p.Spec.Containers.toList ++
    containerEntries "true" p.Spec.InitContainers.toList

/-! ## Auxiliary notions for the lookups -/

/-- The map literal `getPodLabels` starts from. -/
def initialLabels (p : Pod) (cp : Option ContainerPort) (isInit : String) : StrMap :=
  (StrMap.empty.set "__address__" (match cp with
      | some cp => JoinHostPort p.Status.PodIP cp.ContainerPort
      | none => p.Status.PodIP)).set "__meta_kubernetes_pod_container_init" isInit

/-- The keys `appendCommonLabels` itself may write. -/
def commonKeys : List String :=
  ["__meta_kubernetes_pod_name", "__meta_kubernetes_pod_ip", "__meta_kubernetes_pod_ready",
   "__meta_kubernetes_pod_phase", "__meta_kubernetes_pod_node_name",
   "__meta_kubernetes_pod_host_ip", "__meta_kubernetes_pod_uid", "__meta_kubernetes_namespace",
   "__meta_kubernetes_pod_controller_kind", "__meta_kubernetes_pod_controller_name"]

/-- A key outside the pass-through's reach: it starts neither with
`__meta_kubernetes_pod_l` nor with `__meta_kubernetes_pod_a`, so it is under neither
`__meta_kubernetes_pod_label…` nor `__meta_kubernetes_pod_annotation…`. -/
def outsidePassThrough (k : String) : Prop :=
  k.data.take 23 ≠ "__meta_kubernetes_pod_l".data ∧
    k.data.take 23 ≠ "__meta_kubernetes_pod_a".data

instance (k : String) : Decidable (outsidePassThrough k) := by
  unfold outsidePassThrough
  infer_instance

/-- What `appendCommonLabels` leaves under a controller key: the selected
reference's field when it is non-empty, the old entry otherwise. -/
def controllerEntry (sel : Option String) (old : Option String) : Option String :=
  match sel with
  | some v => if v = "" then old else some v
  | none => old

/-! ## Example pods -/

/-- Metadata with the given identity and nothing else. -/
def exMeta (ns name : String) : ObjectMeta :=
  { Name := name, Namespace := ns, UID := "", Labels := [], Annotations := [],
    OwnerReferences := Slice.nil }

/-- The port http/80/TCP. -/
def exPort : ContainerPort := { Name := "http", ContainerPort := 80, Protocol := "TCP" }

/-- The container `c` with the single port http/80/TCP. -/
def exContainer : Container := { Name := "c", Ports := Slice.mk [exPort] }

/-- The pod of the specification's scenario: namespace `ns`, name `p`, address
`10.0.0.5`, one container `c` with port http/80/TCP. -/
def exPod : Pod :=
  { Metadata := exMeta "ns" "p"
    Spec := { NodeName := "", Containers := Slice.mk [exContainer], InitContainers := Slice.nil }
    Status := { Phase := "", PodIP := "10.0.0.5", HostIP := "", Conditions := Slice.nil } }

/-- A pod without an address but with a container that declares a port. -/
def exPodNoIP : Pod :=
  { exPod with Status := { Phase := "Pending", PodIP := "", HostIP := "", Conditions := Slice.nil } }

/-- A container with two ports. -/
def exTwoPorts (name : String) : Container :=
  { Name := name
    Ports := Slice.mk [exPort, { Name := "metrics", ContainerPort := 9090, Protocol := "TCP" }] }

/-- A pod with three regular containers of two ports each and no init containers. -/
def exPodGrid : Pod :=
  { exPod with
    Spec :=
      { NodeName := "node-1"
        Containers := Slice.mk [exTwoPorts "a", exTwoPorts "b", exTwoPorts "c"]
        InitContainers := Slice.nil } }

/-- A container whose port list is missing. -/
def exPortless : Container := { Name := "sidecar", Ports := Slice.nil }

/-- A pod with a regular container with a port, a port-less regular container and
a port-less init container (its port list present but empty), with a label and an
annotation, a Ready condition and identity fields filled. -/
def exPodMixed : Pod :=
  { Metadata :=
      { Name := "p", Namespace := "ns", UID := "u-1"
        Labels := [("app", "web")], Annotations := [("note", "x")]
        OwnerReferences := Slice.nil }
    Spec :=
      { NodeName := "node-1"
        Containers := Slice.mk [exContainer, exPortless]
        InitContainers := Slice.mk [{ Name := "setup", Ports := Slice.mk [] }] }
    Status :=
      { Phase := "Running", PodIP := "10.0.0.5", HostIP := "192.168.1.2"
        Conditions := Slice.mk [{ Type_ := "Ready", Status := "True" }] } }

/-- The pod `p` with its owner references replaced by `ors`. -/
def Pod.withOwnerReferences (p : Pod) (ors : Slice OwnerReference) : Pod :=
  { p with Metadata := { p.Metadata with OwnerReferences := ors } }

/-- The scenario pod owned by a controller reference whose kind and name are empty. -/
def exPodBareController : Pod :=
  exPod.withOwnerReferences (Slice.mk [{ Name := "", Controller := true, Kind := "" }])

/-- The scenario pod with two owner references, only the second being the controller. -/
def exPodTwoOwners : Pod :=
  exPod.withOwnerReferences
    (Slice.mk [{ Name := "cfg", Controller := false, Kind := "ConfigMap" },
      { Name := "rs-1", Controller := true, Kind := "ReplicaSet" }])

/-- A section named `sectionA` whose channel already holds one event. -/
def exCfg : apiConfig :=
  { setName := "sectionA"
    targetChan := [{ Labels := Slice.nil, Key := "pods/sectionA/ns/old", ConfigSectionSet := "sectionA" }] }

/-- The events sent on the section's channel between the state `before` and the
state `after` of the section. -/
def sentEvents (before after : apiConfig) : List SyncEvent :=
  after.targetChan.drop before.targetChan.length

/-- The event built in the "ADDED", "MODIFIED" branch of `processPods`. -/
def upsertEvent (cfg : apiConfig) (p : Pod) : SyncEvent :=
  { Labels := p.appendTargetLabels Slice.nil
    Key := buildSyncKey "pods" cfg.setName p.key
    ConfigSectionSet := cfg.setName }

/-- The event built in the "DELETED" branch of `processPods`. -/
def tombstoneEvent (cfg : apiConfig) (p : Pod) : SyncEvent :=
  { Labels := Slice.nil
    Key := buildSyncKey "pods" cfg.setName p.key
    ConfigSectionSet := cfg.setName }

/-- A pod with an address but no containers at all. -/
def exPodNoContainers : Pod :=
  { exPod with
    Spec := { NodeName := "node-1", Containers := Slice.mk [], InitContainers := Slice.nil } }

/-- Another pod with the identity of the scenario pod (namespace `ns`, name `p`)
and everything else different. -/
def exPodSameIdentity : Pod :=
  { Metadata := { exMeta "ns" "p" with UID := "u-2", Labels := [("app", "db")] }
    Spec := { NodeName := "node-9", Containers := Slice.nil, InitContainers := Slice.nil }
    Status := { Phase := "Failed", PodIP := "", HostIP := "192.168.1.9", Conditions := Slice.nil } }

/-! ## Decoding a pod list (`pod.go`, lines 14-20 and 77-84) -/

/-- Go `[]byte`, as the list of its byte values (each below 256). -/
abbrev Bytes := List Nat

/-- PodList implements k8s pod list. The type `listMetadata` of its second field is
declared outside `pod.go` and is a parameter here. -/
structure PodList (listMetadata : Type) where
  Items : Slice Pod
  Metadata : listMetadata

/-- The Go standard library as `parsePodList` calls it, over the type `E` of the
errors of the JSON decoder: `Unmarshal` is `json.Unmarshal(data, &pl)` on a
zero-valued `pl`, giving what `pl` holds afterwards (possibly partly filled when
decoding fails) and the error, if any; `Quote` renders a byte slice under the verb
`%q`; `Error` is the message of a decoding error. -/
structure JSONLib (listMetadata E : Type) where
  Unmarshal : Bytes → PodList listMetadata × Option E
  Quote : Bytes → String
  Error : E → String

/-- The error value built by `fmt.Errorf` with a `%w` verb: its message and the
error it wraps. -/
structure WrapError (E : Type) where
  msg : String
  Unwrap : E

/-- The function `parsePodList`, `pod.go` line 78: the returned pointer (`none` for
nil) and the returned error (`none` for nil). -/
def parsePodList {listMetadata E : Type} (lib : JSONLib listMetadata E) (data : Bytes) :
    Option (PodList listMetadata) × Option (WrapError E) :=
  match lib.Unmarshal data with
  | (_, some err) =>
    (none, some
      { msg := "cannot unmarshal PodList from " ++ lib.Quote data ++ ": " ++ lib.Error err
        Unwrap := err })
  | (pl, none) => (some pl, none)

/-- A toy decoder for the examples: it accepts exactly the two-byte payload of an
empty JSON object and reports any other payload as an error after having filled
part of the list. -/
def exLib : JSONLib Unit String :=
  { Unmarshal := fun data =>
      if data = [123, 125] then ({ Items := Slice.nil, Metadata := () }, none)
      else ({ Items := Slice.mk [exPod], Metadata := () }, some "unexpected end of JSON input")
    Quote := fun data => "\"" ++ String.mk (data.map Char.ofNat) ++ "\""
    Error := fun e => e }

end Kubernetes

/-! ## Package `parser` (`app/vmagent/pushgateway/parser/streamparser.go`) -/

namespace Parser

/-- Base64Suffix is appended to a label name in the request URL path to mark the
following label value as base64 encoded. -/
def Base64Suffix : String := "@base64"

/-- The function `ParseStream`, `streamparser.go` line 18. The callback acts on a
program state of type `σ` and may fail with an error of type `E`; the result is the
returned error (`none` for nil) and the state afterwards. -/
def ParseStream {Request σ E : Type} (_req : Request)
    (_callback : Kubernetes.StrMap → σ → Option E × σ) (st : σ) : Option E × σ :=
  (none, st)

/-- Go `base64.CorruptInputError`; the input offset it carries is not modelled. -/
inductive CorruptInputError where
  | corrupt : CorruptInputError
  deriving DecidableEq, Repr

/-- The URL-safe alphabet of RFC 4648, Go `encodeURL`. -/
def encodeURL : String := "ABCDEFGHIJKLMNOPQRSTUVWXYZabcdefghijklmnopqrstuvwxyz0123456789-_"

/-- The character of a 6-bit value, Go `enc.encode[v]`. -/
def encodeChar (v : Nat) : Char := encodeURL.data.getD v 'A'

/-- The 6-bit value of a character of the alphabet, `none` for any other character
(Go `enc.decodeMap[c]`, which is `0xff` there). -/
def decodeMap (c : Char) : Option Nat :=
  let i := encodeURL.data.indexOf c
  if i < 64 then some i else none

/-- Decoding without padding of the characters left after dropping line breaks: four
characters give three bytes, a final group of three gives two bytes, of two gives
one byte, and a single left-over character or a character outside the alphabet is
corrupt input. On corrupt input the bytes of the groups decoded before it are
returned with the error, as Go's `Decode` does. Trailing bits of a final group are
ignored (the encoding is not strict). -/
def decodeQuanta : List Char → Kubernetes.Bytes × Option CorruptInputError
  | c0 :: c1 :: c2 :: c3 :: rest =>
    match decodeMap c0, decodeMap c1, decodeMap c2, decodeMap c3 with
    | some d0, some d1, some d2, some d3 =>
      let val := d0 * 262144 + d1 * 4096 + d2 * 64 + d3
      let r := decodeQuanta rest
      (val / 65536 % 256 :: val / 256 % 256 :: val % 256 :: r.1, r.2)
    | _, _, _, _ => ([], some CorruptInputError.corrupt)
  | [c0, c1, c2] =>
    match decodeMap c0, decodeMap c1, decodeMap c2 with
    | some d0, some d1, some d2 =>
      let val := d0 * 262144 + d1 * 4096 + d2 * 64
      ([val / 65536 % 256, val / 256 % 256], none)
    | _, _, _ => ([], some CorruptInputError.corrupt)
  | [c0, c1] =>
    match decodeMap c0, decodeMap c1 with
    | some d0, some d1 =>
      let val := d0 * 262144 + d1 * 4096
      ([val / 65536 % 256], none)
    | _, _ => ([], some CorruptInputError.corrupt)
  | [_] => ([], some CorruptInputError.corrupt)
  | [] => ([], none)

/-- Go `base64.RawURLEncoding.DecodeString`: carriage returns and line feeds are
skipped, the rest is decoded group by group. The Go string of the input is a Lean
`String`; the decoded bytes are kept as a byte list, since they need not be valid
text. -/
def DecodeString (s : String) : Kubernetes.Bytes × Option CorruptInputError :=
  decodeQuanta (s.data.filter (fun c => c ≠ '\n' ∧ c ≠ '\r'))

/-- Go `strings.TrimRight`: `s` without its trailing characters contained in `cutset`. -/
def TrimRight (s cutset : String) : String :=
  String.mk (s.data.rdropWhile (fun c => cutset.data.contains c))

/-- The function `decodeBase64`, `streamparser.go` line 25: the decoded bytes (the Go
string `string(b)`) and the error. -/
def decodeBase64 (s : String) : Kubernetes.Bytes × Option CorruptInputError :=
  DecodeString (TrimRight s "=")

/-- Encoding without padding, RFC 4648 section 5 (Go `RawURLEncoding.Encode`): three
bytes give four characters, two left-over bytes three, one left-over byte two. -/
def encodeQuanta : Kubernetes.Bytes → List Char
  | b0 :: b1 :: b2 :: rest =>
    let val := b0 * 65536 + b1 * 256 + b2
    encodeChar (val / 262144 % 64) :: encodeChar (val / 4096 % 64) ::
      encodeChar (val / 64 % 64) :: encodeChar (val % 64) :: encodeQuanta rest
  | [b0, b1] =>
    let val := b0 * 65536 + b1 * 256
    [encodeChar (val / 262144 % 64), encodeChar (val / 4096 % 64), encodeChar (val / 64 % 64)]
  | [b0] =>
    let val := b0 * 65536
    [encodeChar (val / 262144 % 64), encodeChar (val / 4096 % 64)]
  | [] => []

/-- Go `base64.RawURLEncoding.EncodeToString`: the unpadded URL-safe base64
encoding of a byte string. -/
def EncodeToString (b : Kubernetes.Bytes) : String := String.mk (encodeQuanta b)

end Parser

/-! ## Package `pushgateway` (`app/vmagent/pushgateway/request_handler.go`) -/

namespace Pushgateway

/-- The function `insertRows`, `request_handler.go` line 27, over the program state
`σ` (which holds the counters `rowsInserted` and `rowsPerInsert`). -/
def insertRows {Label σ E : Type} (_labels : Kubernetes.StrMap)
    (_extraLabels : Kubernetes.Slice Label) (st : σ) : Option E × σ :=
  (none, st)

/-- InsertHandler processes `/api/v1/pushgateway` request, `request_handler.go` line
19. The limiter `writeconcurrencylimiter.Do` and the type `prompbmarshal.Label` are
declared outside this file and are parameters. -/
def InsertHandler {Request σ E : Type} (Label : Type)
    (Do : (σ → Option E × σ) → σ → Option E × σ) (req : Request) (st : σ) : Option E × σ :=
  Do (fun st =>
    Parser.ParseStream req
      (fun labels st => insertRows labels (Kubernetes.Slice.nil : Kubernetes.Slice Label) st)
      st) st

end Pushgateway

namespace Kubernetes

/-! ## Slices and the append loops -/

theorem string_length_eq_zero (s : String) : s.length = 0 ↔ s = "" := by
  constructor
  · intro h
    have hd : s.data = [] := List.length_eq_zero.mp h
    cases s
    simp_all
  · rintro rfl
    rfl

theorem Slice.toList_append {α : Type} (s : Slice α) (x : α) :
    (s.append x).toList = s.toList ++ [x] := rfl

theorem foldl_append_toList {β : Type} (f : β → StrMap) (l : List β) (ms : Slice StrMap) :
    (l.foldl (fun ms x => ms.append (f x)) ms).toList = ms.toList ++ l.map f := by
  induction l generalizing ms with
  | nil => simp
  | cons x rest ih => simp [List.foldl_cons, ih, Slice.toList_append]

/-- One pass of the outer loop of `appendPodLabels` adds the entries of the container. -/
theorem appendPodLabels_step (p : Pod) (isInit : String) (c : Container) (ms : Slice StrMap) :
    (if c.Ports.len = 0 then
        (c.Ports.toList.foldl (fun ms cp => ms.append (getPodLabels p c (some cp) isInit)) ms).append
          (getPodLabels p c none isInit)
      else
        c.Ports.toList.foldl (fun ms cp => ms.append (getPodLabels p c (some cp) isInit)) ms).toList
      = ms.toList ++ (portEntries c).map (fun cp => getPodLabels p c cp isInit) := by
  by_cases h : c.Ports.len = 0
  · have hl : c.Ports.toList = [] := List.length_eq_zero.mp h
    simp [h, hl, portEntries, Slice.toList_append]
  · simp [h, portEntries, foldl_append_toList, List.map_map, Function.comp_def]

theorem appendPodLabels_toList (ms : Slice StrMap) (p : Pod) (cs : Slice Container)
    (isInit : String) :
    (appendPodLabels ms p cs isInit).toList
      = ms.toList ++ (containerEntries isInit cs.toList).map
          (fun e => getPodLabels p e.2.1 e.2.2 e.1) := by
  unfold appendPodLabels containerEntries
  generalize cs.toList = l
  induction l generalizing ms with
  | nil => simp
  | cons c rest ih =>
    rw [List.foldl_cons, ih]
    have hs := appendPodLabels_step p isInit c ms
    simp only [] at hs ⊢
    rw [hs]
    simp [List.flatMap_cons, List.map_map, Function.comp_def]

theorem appendTargetLabels_toList (p : Pod) (ms : Slice StrMap) (h : p.Status.PodIP ≠ "") :
    (p.appendTargetLabels ms).toList
      = ms.toList ++ (targetEntries p).map (fun e => getPodLabels p e.2.1 e.2.2 e.1) := by
  have hl : ¬ p.Status.PodIP.length = 0 := fun h0 => h ((string_length_eq_zero _).mp h0)
  simp [Pod.appendTargetLabels, hl, appendPodLabels_toList, targetEntries]

theorem length_portEntries (c : Container) : (portEntries c).length = max 1 c.Ports.len := by
  unfold portEntries
  by_cases h : c.Ports.len = 0
  · rw [if_pos h, h]
    rfl
  · rw [if_neg h, List.length_map]
    have hl : c.Ports.toList.length = c.Ports.len := rfl
    omega

theorem length_containerEntries (isInit : String) (cs : List Container) :
    (containerEntries isInit cs).length = (cs.map (fun c => max 1 c.Ports.len)).sum := by
  induction cs with
  | nil => rfl
  | cons c rest ih =>
    have hc : containerEntries isInit (c :: rest)
        = (portEntries c).map (fun cp => (isInit, c, cp)) ++ containerEntries isInit rest := rfl
    rw [hc, List.length_append, ih, List.length_map, length_portEntries]
    simp

theorem sum_map_const (cs : List Container) (f : Container → Nat) (M : Nat)
    (h : ∀ c ∈ cs, f c = M) : (cs.map f).sum = cs.length * M := by
  induction cs with
  | nil => simp
  | cons c rest ih =>
    have h1 : f c = M := h c (List.mem_cons_self _ _)
    have h2 : (rest.map f).sum = rest.length * M :=
      ih (fun d hd => h d (List.mem_cons_of_mem _ hd))
    simp [h1, h2, Nat.succ_mul, Nat.add_comm]

/-! ## Lookups in the synthesized label sets -/

theorem StrMap.set_same (m : StrMap) (k v : String) : (m.set k v) k = some v := by
  simp [StrMap.set]

theorem StrMap.set_other (m : StrMap) (k v k' : String) (h : k' ≠ k) : (m.set k v) k' = m k' := by
  simp [StrMap.set, h]

theorem foldl_set_other (l : List (String × String)) (key : String → String) (m : StrMap)
    (k : String) (h : ∀ n, k ≠ key n) :
    (l.foldl (fun m lb => m.set (key lb.1) lb.2) m) k = m k := by
  induction l generalizing m with
  | nil => rfl
  | cons x rest ih => rw [List.foldl_cons, ih, StrMap.set_other _ _ _ _ (h x.1)]

theorem ne_of_take_ne (k pre n : String) (w : String)
    (hw : (pre.data ++ n.data).take 23 = w.data) (h : k.data.take 23 ≠ w.data) : k ≠ pre ++ n := by
  intro he
  apply h
  rw [he, String.data_append, hw]

theorem register_other (om : ObjectMeta) (m : StrMap) (k : String) (h : outsidePassThrough k) :
    om.registerLabelsAndAnnotations "__meta_kubernetes_pod" m k = m k := by
  unfold ObjectMeta.registerLabelsAndAnnotations
  rw [foldl_set_other om.Annotations (fun n => "__meta_kubernetes_pod" ++ "_annotation_" ++ n),
    foldl_set_other om.Labels (fun n => "__meta_kubernetes_pod" ++ "_label_" ++ n)]
  · intro n
    exact ne_of_take_ne k _ n "__meta_kubernetes_pod_l" (by simp) h.1
  · intro n
    exact ne_of_take_ne k _ n "__meta_kubernetes_pod_a" (by simp) h.2


theorem appendCommonLabels_frame (p : Pod) (m : StrMap) (k : String)
    (hk : outsidePassThrough k) (hne : k ∉ commonKeys) : p.appendCommonLabels m k = m k := by
  unfold Pod.appendCommonLabels
  simp only [commonKeys, List.mem_cons, List.mem_singleton, not_or, List.not_mem_nil,
    not_false_eq_true, and_true] at hne
  obtain ⟨h1, h2, h3, h4, h5, h6, h7, h8, h9, h10⟩ := hne
  rw [register_other _ _ _ hk]
  cases getPodController p.Metadata.OwnerReferences with
  | none => simp [StrMap.set, *]
  | some pc =>
    by_cases hK : pc.Kind = "" <;> by_cases hN : pc.Name = "" <;> simp [StrMap.set, *]

theorem appendCommonLabels_fixed (p : Pod) (m : StrMap) :
    p.appendCommonLabels m "__meta_kubernetes_pod_name" = some p.Metadata.Name ∧
    p.appendCommonLabels m "__meta_kubernetes_pod_ip" = some p.Status.PodIP ∧
    p.appendCommonLabels m "__meta_kubernetes_pod_ready"
      = some (getPodReadyStatus p.Status.Conditions) ∧
    p.appendCommonLabels m "__meta_kubernetes_pod_phase" = some p.Status.Phase ∧
    p.appendCommonLabels m "__meta_kubernetes_pod_node_name" = some p.Spec.NodeName ∧
    p.appendCommonLabels m "__meta_kubernetes_pod_host_ip" = some p.Status.HostIP ∧
    p.appendCommonLabels m "__meta_kubernetes_pod_uid" = some p.Metadata.UID ∧
    p.appendCommonLabels m "__meta_kubernetes_namespace" = some p.Metadata.Namespace := by
  unfold Pod.appendCommonLabels
  refine ⟨?_, ?_, ?_, ?_, ?_, ?_, ?_, ?_⟩ <;>
  · rw [register_other _ _ _ (by decide)]
    cases getPodController p.Metadata.OwnerReferences with
    | none => simp [StrMap.set]
    | some pc =>
      by_cases hK : pc.Kind = "" <;> by_cases hN : pc.Name = "" <;> simp [StrMap.set, *]

theorem appendCommonLabels_controller (p : Pod) (m : StrMap) :
    p.appendCommonLabels m "__meta_kubernetes_pod_controller_kind"
      = controllerEntry ((getPodController p.Metadata.OwnerReferences).map (·.Kind))
          (m "__meta_kubernetes_pod_controller_kind") ∧
    p.appendCommonLabels m "__meta_kubernetes_pod_controller_name"
      = controllerEntry ((getPodController p.Metadata.OwnerReferences).map (·.Name))
          (m "__meta_kubernetes_pod_controller_name") := by
  unfold Pod.appendCommonLabels
  refine ⟨?_, ?_⟩ <;>
  · rw [register_other _ _ _ (by decide)]
    cases getPodController p.Metadata.OwnerReferences with
    | none => simp [StrMap.set, controllerEntry]
    | some pc =>
      by_cases hK : pc.Kind = "" <;> by_cases hN : pc.Name = "" <;>
        simp [StrMap.set, controllerEntry, *]

theorem appendContainerLabels_congr (p : Pod) (m m' : StrMap) (c : Container)
    (cp : Option ContainerPort) (k : String) (h : m k = m' k) :
    p.appendContainerLabels m c cp k = p.appendContainerLabels m' c cp k := by
  cases cp <;> simp [Pod.appendContainerLabels, StrMap.set, h]

theorem getPodLabels_eq (p : Pod) (c : Container) (cp : Option ContainerPort)
    (isInit : String) :
    getPodLabels p c cp isInit
      = p.appendContainerLabels (p.appendCommonLabels (initialLabels p cp isInit)) c cp := by
  cases cp <;> rfl

theorem getPodLabels_outside (p : Pod) (c : Container) (cp : Option ContainerPort)
    (isInit : String) (k : String) (hk : outsidePassThrough k) (hne : k ∉ commonKeys) :
    getPodLabels p c cp isInit k
      = p.appendContainerLabels (initialLabels p cp isInit) c cp k := by
  rw [getPodLabels_eq]
  exact appendContainerLabels_congr _ _ _ _ _ _ (appendCommonLabels_frame _ _ _ hk hne)

theorem getPodLabels_address (p : Pod) (c : Container) (cp : Option ContainerPort)
    (isInit : String) :
    getPodLabels p c cp isInit "__address__" = some (match cp with
      | some cp => JoinHostPort p.Status.PodIP cp.ContainerPort
      | none => p.Status.PodIP) ∧
    getPodLabels p c cp isInit "__meta_kubernetes_pod_container_init" = some isInit := by
  constructor
  · rw [getPodLabels_outside _ _ _ _ "__address__" (by decide) (by decide)]
    cases cp <;> simp [Pod.appendContainerLabels, StrMap.set, initialLabels]
  · rw [getPodLabels_outside _ _ _ _ "__meta_kubernetes_pod_container_init" (by decide)
      (by decide)]
    cases cp <;> simp [Pod.appendContainerLabels, StrMap.set, initialLabels]

theorem getPodLabels_container (p : Pod) (c : Container) (cp : Option ContainerPort)
    (isInit : String) :
    getPodLabels p c cp isInit "__meta_kubernetes_pod_container_name" = some c.Name ∧
    (∀ x, cp = some x →
      getPodLabels p c cp isInit "__meta_kubernetes_pod_container_port_name" = some x.Name ∧
      getPodLabels p c cp isInit "__meta_kubernetes_pod_container_port_number"
        = some (Itoa x.ContainerPort) ∧
      getPodLabels p c cp isInit "__meta_kubernetes_pod_container_port_protocol"
        = some x.Protocol) := by
  rw [getPodLabels_eq]
  constructor
  · cases cp <;> simp [Pod.appendContainerLabels, StrMap.set]
  · rintro x rfl
    simp [Pod.appendContainerLabels, StrMap.set]

theorem getPodLabels_portless (p : Pod) (c : Container) (isInit : String) :
    getPodLabels p c none isInit "__meta_kubernetes_pod_container_port_name" = none ∧
    getPodLabels p c none isInit "__meta_kubernetes_pod_container_port_number" = none ∧
    getPodLabels p c none isInit "__meta_kubernetes_pod_container_port_protocol" = none := by
  refine ⟨?_, ?_, ?_⟩
  · rw [getPodLabels_outside _ _ _ _ "__meta_kubernetes_pod_container_port_name" (by decide)
      (by decide)]
    simp [Pod.appendContainerLabels, StrMap.set, initialLabels, StrMap.empty]
  · rw [getPodLabels_outside _ _ _ _ "__meta_kubernetes_pod_container_port_number" (by decide)
      (by decide)]
    simp [Pod.appendContainerLabels, StrMap.set, initialLabels, StrMap.empty]
  · rw [getPodLabels_outside _ _ _ _ "__meta_kubernetes_pod_container_port_protocol"
      (by decide) (by decide)]
    simp [Pod.appendContainerLabels, StrMap.set, initialLabels, StrMap.empty]

theorem getPodLabels_common (p : Pod) (c : Container) (cp : Option ContainerPort)
    (isInit : String) (k : String) (hk : k ∈ commonKeys) :
    getPodLabels p c cp isInit k = p.appendCommonLabels (initialLabels p cp isInit) k := by
  rw [getPodLabels_eq]
  simp only [commonKeys, List.mem_cons, List.mem_singleton, List.not_mem_nil, or_false] at hk
  cases cp <;>
    rcases hk with h | h | h | h | h | h | h | h | h | h <;>
      subst h <;> simp [Pod.appendContainerLabels, StrMap.set]

/-! ## Membership in the output -/

theorem mem_containerEntries (isInit : String) (cs : List Container) (c : Container)
    (cp : ContainerPort) (hc : c ∈ cs) (hcp : cp ∈ c.Ports.toList) :
    (isInit, c, some cp) ∈ containerEntries isInit cs := by
  unfold containerEntries
  rw [List.mem_flatMap]
  refine ⟨c, hc, ?_⟩
  have hne : ¬ c.Ports.len = 0 := by
    intro h0
    have hl : c.Ports.toList = [] := List.length_eq_zero.mp h0
    rw [hl] at hcp
    exact absurd hcp (List.not_mem_nil _)
  simp only [portEntries, if_neg hne, List.map_map, List.mem_map]
  exact ⟨cp, hcp, rfl⟩

theorem mem_appendTargetLabels (p : Pod) (m : StrMap)
    (hm : m ∈ (p.appendTargetLabels Slice.nil).toList) :
    ∃ c cp isInit, m = getPodLabels p c cp isInit := by
  by_cases h : p.Status.PodIP = ""
  · have hl : (p.appendTargetLabels Slice.nil).toList = [] := by
      simp [Pod.appendTargetLabels, h, Slice.toList]
    rw [hl] at hm
    exact absurd hm (List.not_mem_nil _)
  · rw [appendTargetLabels_toList p Slice.nil h] at hm
    have hnil : (Slice.nil : Slice StrMap).toList = [] := rfl
    rw [hnil, List.nil_append, List.mem_map] at hm
    obtain ⟨e, _, he⟩ := hm
    exact ⟨e.2.1, e.2.2, e.1, he.symm⟩

theorem portEntries_of_len_zero (c : Container) (h : c.Ports.len = 0) :
    portEntries c = [none] := by
  simp [portEntries, h]

theorem containerEntries_split (isInit : String) (pre post : List Container) (c : Container)
    (h : c.Ports.len = 0) :
    containerEntries isInit (pre ++ c :: post)
      = containerEntries isInit pre ++ (isInit, c, none) :: containerEntries isInit post := by
  simp [containerEntries, List.flatMap_append, List.flatMap_cons, portEntries_of_len_zero c h]

theorem getPodReadyStatusLoop_eq (l : List PodCondition) :
    getPodReadyStatusLoop l
      = match l.find? (fun c => decide (c.Type_ = "Ready")) with
        | some c => ToLower c.Status
        | none => "unknown" := by
  induction l with
  | nil => rfl
  | cons c rest ih =>
    by_cases h : c.Type_ = "Ready"
    · simp [getPodReadyStatusLoop, List.find?_cons, h]
    · simp [getPodReadyStatusLoop, List.find?_cons, h, ih]

/-! ## The controlling owner reference -/

theorem getPodControllerLoop_eq_find (l : List OwnerReference) :
    getPodControllerLoop l = l.find? (fun o => o.Controller) := by
  induction l with
  | nil => rfl
  | cons o rest ih =>
    cases h : o.Controller <;> simp [getPodControllerLoop, List.find?_cons, h, ih]

theorem getPodControllerLoop_filter (l : List OwnerReference) :
    getPodControllerLoop (l.filter (fun o => o.Controller)) = getPodControllerLoop l := by
  induction l with
  | nil => rfl
  | cons o rest ih =>
    cases h : o.Controller <;> simp [getPodControllerLoop, List.filter_cons, h, ih]

theorem getPodLabels_controller (p : Pod) (c : Container) (cp : Option ContainerPort)
    (isInit : String) :
    getPodLabels p c cp isInit "__meta_kubernetes_pod_controller_kind"
      = controllerEntry ((getPodController p.Metadata.OwnerReferences).map (·.Kind)) none ∧
    getPodLabels p c cp isInit "__meta_kubernetes_pod_controller_name"
      = controllerEntry ((getPodController p.Metadata.OwnerReferences).map (·.Name)) none := by
  rw [getPodLabels_common p c cp isInit _ (by decide),
    getPodLabels_common p c cp isInit _ (by decide)]
  have h := appendCommonLabels_controller p (initialLabels p cp isInit)
  have hk : initialLabels p cp isInit "__meta_kubernetes_pod_controller_kind" = none := by
    simp [initialLabels, StrMap.set, StrMap.empty]
  have hn : initialLabels p cp isInit "__meta_kubernetes_pod_controller_name" = none := by
    simp [initialLabels, StrMap.set, StrMap.empty]
  rw [hk, hn] at h
  exact h

theorem controllerEntry_isSome (sel : Option String) :
    (controllerEntry sel none).isSome = true ↔ ∃ v, sel = some v ∧ v ≠ "" := by
  cases sel with
  | none => simp [controllerEntry]
  | some v => by_cases hv : v = "" <;> simp [controllerEntry, hv]

theorem controllerEntry_ne_empty (sel : Option String) : controllerEntry sel none ≠ some "" := by
  cases sel with
  | none => simp [controllerEntry]
  | some v =>
    by_cases hv : v = ""
    · simp [controllerEntry, hv]
    · simp [controllerEntry, hv]

theorem getPodLabels_withOwnerReferences (p : Pod) (ors : Slice OwnerReference)
    (h : getPodController ors = getPodController p.Metadata.OwnerReferences) :
    getPodLabels (p.withOwnerReferences ors) = getPodLabels p := by
  funext c cp isInit
  rw [getPodLabels_eq, getPodLabels_eq]
  have hc : ∀ m, (p.withOwnerReferences ors).appendCommonLabels m = p.appendCommonLabels m := by
    intro m
    unfold Pod.appendCommonLabels
    simp only [Pod.withOwnerReferences, h]
    rfl
  rw [hc]
  rfl

theorem appendTargetLabels_withOwnerReferences (p : Pod) (ors : Slice OwnerReference)
    (ms : Slice StrMap)
    (h : getPodController ors = getPodController p.Metadata.OwnerReferences) :
    (p.withOwnerReferences ors).appendTargetLabels ms = p.appendTargetLabels ms := by
  have hg := getPodLabels_withOwnerReferences p ors h
  unfold Pod.appendTargetLabels appendPodLabels
  simp only [hg]
  rfl

/-! ## Events sent by one watch action -/

theorem sentEvents_send (cfg : apiConfig) (ev : SyncEvent) :
    sentEvents cfg (cfg.send ev) = [ev] := by
  simp [sentEvents, apiConfig.send]

theorem sentEvents_upsert (cfg : apiConfig) (p : Pod) (action : String) (log : List String)
    (h : action = "ADDED" ∨ action = "MODIFIED") :
    sentEvents cfg (processPods cfg p action log).1
      = [{ Labels := p.appendTargetLabels Slice.nil
           Key := buildSyncKey "pods" cfg.setName p.key
           ConfigSectionSet := cfg.setName }] := by
  simp only [processPods, if_pos h]
  exact sentEvents_send _ _

theorem sentEvents_deleted (cfg : apiConfig) (p : Pod) (log : List String) :
    sentEvents cfg (processPods cfg p "DELETED" log).1
      = [{ Labels := Slice.nil
           Key := buildSyncKey "pods" cfg.setName p.key
           ConfigSectionSet := cfg.setName }] :=
  sentEvents_send _ _

theorem appendPodLabels_nil_iff (ms : Slice StrMap) (p : Pod) (cs : Slice Container)
    (isInit : String) :
    appendPodLabels ms p cs isInit = Slice.nil ↔ ms = Slice.nil ∧ cs.len = 0 := by
  unfold appendPodLabels Slice.len
  generalize cs.toList = l
  induction l generalizing ms with
  | nil => simp
  | cons c rest ih =>
    rw [List.foldl_cons, ih]
    have hne : (if c.Ports.toList.length = 0 then
          (c.Ports.toList.foldl (fun ms cp => ms.append (getPodLabels p c (some cp) isInit))
            ms).append (getPodLabels p c none isInit)
        else
          c.Ports.toList.foldl (fun ms cp => ms.append (getPodLabels p c (some cp) isInit)) ms)
        ≠ Slice.nil := by
      by_cases h0 : c.Ports.toList.length = 0
      · rw [if_pos h0]
        simp [Slice.append]
      · rw [if_neg h0]
        cases hl : c.Ports.toList with
        | nil => simp [hl] at h0
        | cons x xs =>
          have hx := foldl_append_toList (fun cp => getPodLabels p c (some cp) isInit)
            (x :: xs) ms
          intro hnil
          rw [hnil] at hx
          simp [Slice.toList] at hx
    constructor
    · rintro ⟨hnil, _⟩
      exact absurd hnil hne
    · rintro ⟨_, hlen⟩
      simp at hlen

theorem appendTargetLabels_nil_iff (p : Pod) :
    p.appendTargetLabels Slice.nil = Slice.nil ↔
      (p.Status.PodIP = "" ∨ (p.Spec.Containers.len = 0 ∧ p.Spec.InitContainers.len = 0)) := by
  by_cases h : p.Status.PodIP = ""
  · simp [Pod.appendTargetLabels, h]
  · have hl : ¬ p.Status.PodIP.length = 0 := fun h0 => h ((string_length_eq_zero _).mp h0)
    simp [Pod.appendTargetLabels, hl, h, appendPodLabels_nil_iff]

theorem appendTargetLabels_eq_nil_iff (p : Pod) (ms : Slice StrMap) :
    p.appendTargetLabels ms = Slice.nil ↔
      (ms = Slice.nil ∧ p.appendTargetLabels Slice.nil = Slice.nil) := by
  by_cases h : p.Status.PodIP = ""
  · simp [Pod.appendTargetLabels, h]
  · have hl : ¬ p.Status.PodIP.length = 0 := fun h0 => h ((string_length_eq_zero _).mp h0)
    simp only [Pod.appendTargetLabels, hl, if_false, appendPodLabels_nil_iff]
    tauto

theorem appendTargetLabels_toList_all (p : Pod) (ms : Slice StrMap) :
    (p.appendTargetLabels ms).toList = ms.toList ++ (p.appendTargetLabels Slice.nil).toList := by
  by_cases h : p.Status.PodIP = ""
  · simp [Pod.appendTargetLabels, h, Slice.toList]
  · rw [appendTargetLabels_toList p ms h, appendTargetLabels_toList p Slice.nil h]
    rfl

theorem append_sep_cancel (sep : Char) (l₁ l₂ r₁ r₂ : List Char) (h₁ : sep ∉ l₁)
    (h₂ : sep ∉ l₂) (h : l₁ ++ sep :: r₁ = l₂ ++ sep :: r₂) : l₁ = l₂ ∧ r₁ = r₂ := by
  induction l₁ generalizing l₂ with
  | nil =>
    cases l₂ with
    | nil => simpa using h
    | cons b t =>
      simp only [List.nil_append, List.cons_append, List.cons.injEq] at h
      exact absurd (h.1 ▸ List.mem_cons_self _ _) h₂
  | cons a t ih =>
    cases l₂ with
    | nil =>
      simp only [List.nil_append, List.cons_append, List.cons.injEq] at h
      exact absurd (h.1 ▸ List.mem_cons_self _ _) h₁
    | cons b u =>
      simp only [List.cons_append, List.cons.injEq] at h
      obtain ⟨hab, ht⟩ := h
      obtain ⟨e₁, e₂⟩ := ih u (fun hm => h₁ (List.mem_cons_of_mem _ hm))
        (fun hm => h₂ (List.mem_cons_of_mem _ hm)) ht
      exact ⟨by rw [hab, e₁], e₂⟩

theorem key_eq_iff (p q : Pod) (hp : '/' ∉ p.Metadata.Namespace.data)
    (hq : '/' ∉ q.Metadata.Namespace.data) :
    p.key = q.key ↔
      (p.Metadata.Namespace = q.Metadata.Namespace ∧ p.Metadata.Name = q.Metadata.Name) := by
  constructor
  · intro h
    have hd := congrArg String.data h
    simp only [Pod.key, String.data_append] at hd
    rw [List.append_assoc, List.append_assoc, List.singleton_append,
      List.singleton_append] at hd
    obtain ⟨e₁, e₂⟩ := append_sep_cancel '/' _ _ _ _ hp hq hd
    exact ⟨String.ext e₁, String.ext e₂⟩
  · rintro ⟨e₁, e₂⟩
    simp [Pod.key, e₁, e₂]

theorem buildSyncKey_eq_iff (kind setName k₁ k₂ : String) :
    buildSyncKey kind setName k₁ = buildSyncKey kind setName k₂ ↔ k₁ = k₂ := by
  constructor
  · intro h
    have hd := congrArg String.data h
    simp only [buildSyncKey, String.data_append] at hd
    exact String.ext (List.append_cancel_left hd)
  · rintro rfl
    rfl

/-! ## Claims about the shape of the output -/

/-- C1: a pod whose PodIP is the empty string yields no label sets, whatever its
containers, init containers, ports, conditions and owner references are:
`appendTargetLabels(nil)` returns the nil slice, of length zero. -/
theorem C1_empty_ip_no_labels (p : Pod) (h : p.Status.PodIP = "") :
    p.appendTargetLabels Slice.nil = Slice.nil ∧
      (p.appendTargetLabels Slice.nil).toList = [] := by
  simp [Pod.appendTargetLabels, h, Slice.toList]

theorem C1_empty_ip_no_labels_witness :
    exPodNoIP.Status.PodIP = "" ∧ exPodNoIP.Spec.Containers.len = 1 ∧
      exPodNoIP.appendTargetLabels Slice.nil = Slice.nil ∧
      (exPodNoIP.appendTargetLabels Slice.nil).toList = [] :=
  ⟨rfl, rfl, C1_empty_ip_no_labels exPodNoIP rfl⟩

/-- C2: for a pod with a non-empty PodIP the number of label sets is the sum, over
the regular and the init containers, of max(1, number of declared ports); a pod
with N containers of M >= 1 ports each and no init containers yields N*M. -/
theorem C2_label_set_count (p : Pod) (h : p.Status.PodIP ≠ "") :
    (p.appendTargetLabels Slice.nil).len
        = ((p.Spec.Containers.toList ++ p.Spec.InitContainers.toList).map
            (fun c => max 1 c.Ports.len)).sum ∧
      ∀ M : Nat, 1 ≤ M → p.Spec.InitContainers.len = 0 →
        (∀ c ∈ p.Spec.Containers.toList, c.Ports.len = M) →
        (p.appendTargetLabels Slice.nil).len = p.Spec.Containers.len * M := by
  have hlen : (p.appendTargetLabels Slice.nil).len
        = ((p.Spec.Containers.toList ++ p.Spec.InitContainers.toList).map
            (fun c => max 1 c.Ports.len)).sum := by
    show (p.appendTargetLabels Slice.nil).toList.length = _
    rw [appendTargetLabels_toList p Slice.nil h]
    have hnil : (Slice.nil : Slice StrMap).toList = [] := rfl
    rw [hnil, List.nil_append, List.length_map, targetEntries, List.length_append,
      length_containerEntries, length_containerEntries, List.map_append, List.sum_append]
  refine ⟨hlen, ?_⟩
  intro M hM hinit hports
  have hi : p.Spec.InitContainers.toList = [] := List.length_eq_zero.mp hinit
  rw [hlen, hi, List.append_nil]
  exact sum_map_const _ _ M (fun c hc => by rw [hports c hc]; exact Nat.max_eq_right hM)

theorem C2_label_set_count_witness :
    exPodGrid.Status.PodIP ≠ "" ∧ exPodGrid.Spec.Containers.len = 3 ∧
      (exPodGrid.appendTargetLabels Slice.nil).len
        = ((exPodGrid.Spec.Containers.toList ++ exPodGrid.Spec.InitContainers.toList).map
            (fun c => max 1 c.Ports.len)).sum ∧
      (exPodGrid.appendTargetLabels Slice.nil).len = 3 * 2 :=
  ⟨by decide, rfl, (C2_label_set_count exPodGrid (by decide)).1,
    (C2_label_set_count exPodGrid (by decide)).2 2 (by decide) rfl (by decide)⟩

/-- C3: for a pod with a non-empty PodIP, a container c of it and a port cp declared
by c, the label set generated for (c, cp) is in the output, its `__address__` is
the PodIP, a colon and the decimal port number, and its
`__meta_kubernetes_pod_container_init` is "false" for a regular container and
"true" for an init container. -/
theorem C3_port_address_and_init_flag (p : Pod) (h : p.Status.PodIP ≠ "") (c : Container)
    (cp : ContainerPort) (hcp : cp ∈ c.Ports.toList) :
    (c ∈ p.Spec.Containers.toList →
      getPodLabels p c (some cp) "false" ∈ (p.appendTargetLabels Slice.nil).toList ∧
      getPodLabels p c (some cp) "false" "__address__"
        = some (p.Status.PodIP ++ ":" ++ Itoa cp.ContainerPort) ∧
      getPodLabels p c (some cp) "false" "__meta_kubernetes_pod_container_init"
        = some "false") ∧
    (c ∈ p.Spec.InitContainers.toList →
      getPodLabels p c (some cp) "true" ∈ (p.appendTargetLabels Slice.nil).toList ∧
      getPodLabels p c (some cp) "true" "__address__"
        = some (p.Status.PodIP ++ ":" ++ Itoa cp.ContainerPort) ∧
      getPodLabels p c (some cp) "true" "__meta_kubernetes_pod_container_init"
        = some "true") := by
  have hnil : (Slice.nil : Slice StrMap).toList = [] := rfl
  constructor
  · intro hc
    refine ⟨?_, (getPodLabels_address p c (some cp) "false").1,
      (getPodLabels_address p c (some cp) "false").2⟩
    rw [appendTargetLabels_toList p Slice.nil h, hnil, List.nil_append, List.mem_map]
    exact ⟨("false", c, some cp),
      List.mem_append_left _ (mem_containerEntries "false" _ c cp hc hcp), rfl⟩
  · intro hc
    refine ⟨?_, (getPodLabels_address p c (some cp) "true").1,
      (getPodLabels_address p c (some cp) "true").2⟩
    rw [appendTargetLabels_toList p Slice.nil h, hnil, List.nil_append, List.mem_map]
    exact ⟨("true", c, some cp),
      List.mem_append_right _ (mem_containerEntries "true" _ c cp hc hcp), rfl⟩

theorem C3_port_address_and_init_flag_witness :
    exPod.Status.PodIP = "10.0.0.5" ∧ exPort.ContainerPort = 80 ∧
      getPodLabels exPod exContainer (some exPort) "false"
        ∈ (exPod.appendTargetLabels Slice.nil).toList ∧
      getPodLabels exPod exContainer (some exPort) "false" "__address__"
        = some "10.0.0.5:80" ∧
      getPodLabels exPod exContainer (some exPort) "false"
        "__meta_kubernetes_pod_container_init" = some "false" :=
  ⟨rfl, rfl,
    (C3_port_address_and_init_flag exPod (by decide) exContainer exPort
      (List.mem_singleton.mpr rfl)).1 (List.mem_singleton.mpr rfl)⟩

/-- C4: for a pod with a non-empty PodIP, a container that declares zero ports (its
port list missing or present but empty) contributes exactly one label set, between
the label sets of the containers before it and those of the containers after it;
that label set has `__address__` equal to the PodIP with no port suffix, has
`__meta_kubernetes_pod_container_name` equal to the container's name, and has none
of the three `__meta_kubernetes_pod_container_port_*` keys. -/
theorem C4_portless_container (p : Pod) (h : p.Status.PodIP ≠ "") (c : Container)
    (hc : c.Ports = Slice.nil ∨ c.Ports = Slice.mk []) :
    (∀ pre post, p.Spec.Containers.toList = pre ++ c :: post →
      (p.appendTargetLabels Slice.nil).toList
        = (appendPodLabels Slice.nil p (Slice.mk pre) "false").toList
          ++ [getPodLabels p c none "false"]
          ++ (appendPodLabels Slice.nil p (Slice.mk post) "false").toList
          ++ (appendPodLabels Slice.nil p p.Spec.InitContainers "true").toList) ∧
    (∀ pre post, p.Spec.InitContainers.toList = pre ++ c :: post →
      (p.appendTargetLabels Slice.nil).toList
        = (appendPodLabels Slice.nil p p.Spec.Containers "false").toList
          ++ (appendPodLabels Slice.nil p (Slice.mk pre) "true").toList
          ++ [getPodLabels p c none "true"]
          ++ (appendPodLabels Slice.nil p (Slice.mk post) "true").toList) ∧
    ∀ isInit,
      getPodLabels p c none isInit "__address__" = some p.Status.PodIP ∧
      getPodLabels p c none isInit "__meta_kubernetes_pod_container_name" = some c.Name ∧
      getPodLabels p c none isInit "__meta_kubernetes_pod_container_port_name" = none ∧
      getPodLabels p c none isInit "__meta_kubernetes_pod_container_port_number" = none ∧
      getPodLabels p c none isInit "__meta_kubernetes_pod_container_port_protocol" = none := by
  have hlen : c.Ports.len = 0 := by
    rcases hc with hc | hc <;> rw [hc] <;> rfl
  have hnil : (Slice.nil : Slice StrMap).toList = [] := rfl
  have hmk : ∀ l : List Container, (Slice.mk l).toList = l := fun _ => rfl
  refine ⟨?_, ?_, ?_⟩
  · intro pre post hsplit
    rw [appendTargetLabels_toList p Slice.nil h]
    simp only [appendPodLabels_toList, hnil, hmk, List.nil_append, targetEntries, hsplit,
      containerEntries_split "false" pre post c hlen, List.map_append, List.map_cons,
      List.append_assoc, List.singleton_append]
  · intro pre post hsplit
    rw [appendTargetLabels_toList p Slice.nil h]
    simp only [appendPodLabels_toList, hnil, hmk, List.nil_append, targetEntries, hsplit,
      containerEntries_split "true" pre post c hlen, List.map_append, List.map_cons,
      List.append_assoc, List.singleton_append]
  · intro isInit
    exact ⟨(getPodLabels_address p c none isInit).1, (getPodLabels_container p c none isInit).1,
      getPodLabels_portless p c isInit⟩

theorem C4_portless_container_witness :
    exPodMixed.Status.PodIP = "10.0.0.5" ∧
      (exPodMixed.appendTargetLabels Slice.nil).toList
        = (appendPodLabels Slice.nil exPodMixed (Slice.mk [exContainer]) "false").toList
          ++ [getPodLabels exPodMixed exPortless none "false"]
          ++ (appendPodLabels Slice.nil exPodMixed (Slice.mk []) "false").toList
          ++ (appendPodLabels Slice.nil exPodMixed exPodMixed.Spec.InitContainers "true").toList ∧
      getPodLabels exPodMixed exPortless none "false" "__address__" = some "10.0.0.5" ∧
      getPodLabels exPodMixed exPortless none "false" "__meta_kubernetes_pod_container_name"
        = some "sidecar" ∧
      getPodLabels exPodMixed exPortless none "false"
        "__meta_kubernetes_pod_container_port_name" = none ∧
      getPodLabels exPodMixed exPortless none "false"
        "__meta_kubernetes_pod_container_port_number" = none ∧
      getPodLabels exPodMixed exPortless none "false"
        "__meta_kubernetes_pod_container_port_protocol" = none :=
  ⟨rfl,
    (C4_portless_container exPodMixed (by decide) exPortless (Or.inl rfl)).1
      [exContainer] [] rfl,
    (C4_portless_container exPodMixed (by decide) exPortless (Or.inl rfl)).2.2 "false"⟩

/-- C5: for a pod with a non-empty PodIP the output lists the label sets of the
regular containers in declared order, then those of the init containers in
declared order, each container's ports in declared order (or its single port-less
entry); the i-th label set carries the i-th (container, port) pair: the
container's name under `__meta_kubernetes_pod_container_name` and the port's name,
decimal number and protocol under the three port keys, whatever the pod's
metadata labels and annotations are. -/
theorem C5_order_of_label_sets (p : Pod) (h : p.Status.PodIP ≠ "") :
    (p.appendTargetLabels Slice.nil).toList
        = (targetEntries p).map (fun e => getPodLabels p e.2.1 e.2.2 e.1) ∧
      List.Forall₂
        (fun m e =>
          m "__meta_kubernetes_pod_container_name" = some e.2.1.Name ∧
          ∀ x, e.2.2 = some x →
            m "__meta_kubernetes_pod_container_port_name" = some x.Name ∧
            m "__meta_kubernetes_pod_container_port_number" = some (Itoa x.ContainerPort) ∧
            m "__meta_kubernetes_pod_container_port_protocol" = some x.Protocol)
        (p.appendTargetLabels Slice.nil).toList (targetEntries p) := by
  have hnil : (Slice.nil : Slice StrMap).toList = [] := rfl
  have hl : (p.appendTargetLabels Slice.nil).toList
      = (targetEntries p).map (fun e => getPodLabels p e.2.1 e.2.2 e.1) := by
    rw [appendTargetLabels_toList p Slice.nil h, hnil, List.nil_append]
  refine ⟨hl, ?_⟩
  rw [hl, List.forall₂_map_left_iff, List.forall₂_same]
  intro e _
  exact getPodLabels_container p e.2.1 e.2.2 e.1

theorem C5_order_of_label_sets_witness :
    (exPodMixed.appendTargetLabels Slice.nil).toList.map
        (fun m => (m "__meta_kubernetes_pod_container_name",
          m "__meta_kubernetes_pod_container_port_name",
          m "__meta_kubernetes_pod_container_port_number",
          m "__meta_kubernetes_pod_container_port_protocol"))
      = [(some "c", some "http", some "80", some "TCP"),
         (some "sidecar", none, none, none),
         (some "setup", none, none, none)] ∧
    targetEntries exPodMixed
      = [("false", exContainer, some exPort), ("false", exPortless, none),
         ("true", { Name := "setup", Ports := Slice.mk [] }, none)] := by
  have h := (C5_order_of_label_sets exPodMixed (by decide)).1
  refine ⟨?_, by decide⟩
  rw [h]
  decide

/-- C6: every label set of a pod contains `__address__` and the eight pod-scoped
keys, and the values under the eight keys are the pod's name, PodIP, derived
readiness, phase, node name, host IP, UID and namespace, hence the same in every
label set of the pod, whichever container or port generated it. -/
theorem C6_pod_scoped_keys (p : Pod) (m : StrMap)
    (hm : m ∈ (p.appendTargetLabels Slice.nil).toList) :
    (m "__address__").isSome = true ∧
    m "__meta_kubernetes_pod_name" = some p.Metadata.Name ∧
    m "__meta_kubernetes_pod_ip" = some p.Status.PodIP ∧
    m "__meta_kubernetes_pod_ready" = some (getPodReadyStatus p.Status.Conditions) ∧
    m "__meta_kubernetes_pod_phase" = some p.Status.Phase ∧
    m "__meta_kubernetes_pod_node_name" = some p.Spec.NodeName ∧
    m "__meta_kubernetes_pod_host_ip" = some p.Status.HostIP ∧
    m "__meta_kubernetes_pod_uid" = some p.Metadata.UID ∧
    m "__meta_kubernetes_namespace" = some p.Metadata.Namespace := by
  obtain ⟨c, cp, isInit, rfl⟩ := mem_appendTargetLabels p m hm
  refine ⟨?_, ?_⟩
  · rw [(getPodLabels_address p c cp isInit).1]
    rfl
  · rw [getPodLabels_common p c cp isInit _ (by decide),
      getPodLabels_common p c cp isInit _ (by decide),
      getPodLabels_common p c cp isInit _ (by decide),
      getPodLabels_common p c cp isInit _ (by decide),
      getPodLabels_common p c cp isInit _ (by decide),
      getPodLabels_common p c cp isInit _ (by decide),
      getPodLabels_common p c cp isInit _ (by decide),
      getPodLabels_common p c cp isInit _ (by decide)]
    exact appendCommonLabels_fixed p _

theorem C6_pod_scoped_keys_witness :
    getPodLabels exPodMixed exPortless none "false"
        ∈ (exPodMixed.appendTargetLabels Slice.nil).toList ∧
      (getPodLabels exPodMixed exPortless none "false" "__address__").isSome = true ∧
      getPodLabels exPodMixed exPortless none "false" "__meta_kubernetes_pod_name"
        = some "p" ∧
      getPodLabels exPodMixed exPortless none "false" "__meta_kubernetes_pod_ip"
        = some "10.0.0.5" ∧
      getPodLabels exPodMixed exPortless none "false" "__meta_kubernetes_pod_ready"
        = some "true" ∧
      getPodLabels exPodMixed exPortless none "false" "__meta_kubernetes_pod_phase"
        = some "Running" ∧
      getPodLabels exPodMixed exPortless none "false" "__meta_kubernetes_pod_node_name"
        = some "node-1" ∧
      getPodLabels exPodMixed exPortless none "false" "__meta_kubernetes_pod_host_ip"
        = some "192.168.1.2" ∧
      getPodLabels exPodMixed exPortless none "false" "__meta_kubernetes_pod_uid"
        = some "u-1" ∧
      getPodLabels exPodMixed exPortless none "false" "__meta_kubernetes_namespace"
        = some "ns" :=
  have hmem : getPodLabels exPodMixed exPortless none "false"
      ∈ (exPodMixed.appendTargetLabels Slice.nil).toList :=
    List.mem_cons_of_mem _ (List.mem_cons_self _ _)
  ⟨hmem, C6_pod_scoped_keys exPodMixed _ hmem⟩

/-- C7: getPodReadyStatus returns the lower-cased Status of the first condition
whose Type is exactly "Ready"; it returns "unknown" when no condition has Type
"Ready", and otherwise only when that first Ready condition's status lower-cases
to "unknown". A single Ready condition with status "True" gives "true"; no
conditions give "unknown". -/
theorem C7_ready_status (conds : Slice PodCondition) :
    (getPodReadyStatus conds
        = match conds.toList.find? (fun c => decide (c.Type_ = "Ready")) with
          | some c => ToLower c.Status
          | none => "unknown") ∧
      (getPodReadyStatus conds = "unknown" ↔
        (∀ c ∈ conds.toList, c.Type_ ≠ "Ready") ∨
          ∃ c, conds.toList.find? (fun c => decide (c.Type_ = "Ready")) = some c ∧
            ToLower c.Status = "unknown") ∧
      getPodReadyStatus (Slice.mk [{ Type_ := "Ready", Status := "True" }]) = "true" ∧
      getPodReadyStatus (Slice.mk []) = "unknown" ∧
      getPodReadyStatus Slice.nil = "unknown" := by
  have heq := getPodReadyStatusLoop_eq conds.toList
  refine ⟨heq, ?_, by decide, rfl, rfl⟩
  unfold getPodReadyStatus
  rw [heq]
  cases hf : conds.toList.find? (fun c => decide (c.Type_ = "Ready")) with
  | none =>
    have hnone := List.find?_eq_none.mp hf
    simp only [true_iff]
    left
    intro c hc
    simpa using hnone c hc
  | some c =>
    have hc : c.Type_ = "Ready" := by simpa using List.find?_some hf
    have hmem : c ∈ conds.toList := List.mem_of_find?_eq_some hf
    constructor
    · intro hu
      exact Or.inr ⟨c, rfl, hu⟩
    · rintro (hall | ⟨d, hd, hu⟩)
      · exact absurd hc (hall c hmem)
      · cases hd
        exact hu

/-! ## Claims about the controller keys -/

/-- C8, as stated, fails: the pod has an address, one container and an owner
reference with the controller flag set, yet its label set carries neither
controller key, because that reference's kind and name are empty. -/
theorem C8_controller_keys_counterexample :
    exPodBareController.Status.PodIP ≠ "" ∧
      exPodBareController.Spec.Containers.len = 1 ∧
      (∃ o ∈ exPodBareController.Metadata.OwnerReferences.toList, o.Controller = true) ∧
      (exPodBareController.appendTargetLabels Slice.nil).toList.map
          (fun m => (m "__meta_kubernetes_pod_controller_kind",
            m "__meta_kubernetes_pod_controller_name"))
        = [(none, none)] := by
  refine ⟨by decide, rfl, ⟨_, List.mem_singleton.mpr rfl, rfl⟩, by decide⟩

/-- C8, amended: in every label set of a pod a controller key appears only if some
owner reference has its controller flag set; when one has, the kind key appears
exactly when the first such reference has a non-empty kind, and the name key
exactly when it has a non-empty name; and with two owner references of which only
the second has the flag set, each key holds the second reference's kind or name,
and is absent when that field is empty. -/
theorem C8_controller_keys_amended (p : Pod) (m : StrMap)
    (hm : m ∈ (p.appendTargetLabels Slice.nil).toList) :
    (((m "__meta_kubernetes_pod_controller_kind").isSome = true ∨
        (m "__meta_kubernetes_pod_controller_name").isSome = true) →
      ∃ o ∈ p.Metadata.OwnerReferences.toList, o.Controller = true) ∧
    (∀ o, p.Metadata.OwnerReferences.toList.find? (fun o => o.Controller) = some o →
      ((m "__meta_kubernetes_pod_controller_kind").isSome = true ↔ o.Kind ≠ "") ∧
      ((m "__meta_kubernetes_pod_controller_name").isSome = true ↔ o.Name ≠ "")) ∧
    (∀ o₁ o₂, p.Metadata.OwnerReferences.toList = [o₁, o₂] →
      o₁.Controller = false → o₂.Controller = true →
      m "__meta_kubernetes_pod_controller_kind"
        = (if o₂.Kind = "" then none else some o₂.Kind) ∧
      m "__meta_kubernetes_pod_controller_name"
        = (if o₂.Name = "" then none else some o₂.Name)) := by
  obtain ⟨c, cp, isInit, rfl⟩ := mem_appendTargetLabels p m hm
  obtain ⟨hk, hn⟩ := getPodLabels_controller p c cp isInit
  have hsel : getPodController p.Metadata.OwnerReferences
      = p.Metadata.OwnerReferences.toList.find? (fun o => o.Controller) :=
    getPodControllerLoop_eq_find _
  rw [hk, hn, hsel]
  refine ⟨?_, ?_, ?_⟩
  · intro hsome
    cases hf : p.Metadata.OwnerReferences.toList.find? (fun o => o.Controller) with
    | none => simp [hf, controllerEntry] at hsome
    | some o => exact ⟨o, List.mem_of_find?_eq_some hf, List.find?_some hf⟩
  · intro o hf
    rw [hf]
    simp [controllerEntry_isSome]
  · intro o₁ o₂ hl h₁ h₂
    rw [hl]
    simp [List.find?_cons, h₁, h₂, controllerEntry]

theorem C8_controller_keys_amended_witness :
    getPodLabels exPodTwoOwners exContainer (some exPort) "false"
        ∈ (exPodTwoOwners.appendTargetLabels Slice.nil).toList ∧
      getPodLabels exPodTwoOwners exContainer (some exPort) "false"
        "__meta_kubernetes_pod_controller_kind" = some "ReplicaSet" ∧
      getPodLabels exPodTwoOwners exContainer (some exPort) "false"
        "__meta_kubernetes_pod_controller_name" = some "rs-1" :=
  have hmem : getPodLabels exPodTwoOwners exContainer (some exPort) "false"
      ∈ (exPodTwoOwners.appendTargetLabels Slice.nil).toList := List.mem_singleton.mpr rfl
  ⟨hmem, (C8_controller_keys_amended exPodTwoOwners _ hmem).2.2 _ _ rfl rfl rfl⟩

/-- C9: getPodController selects the first owner reference whose controller flag
is set, and none if no reference has it set; in every label set the kind key is
present exactly when a reference is selected and its Kind is non-empty, with that
Kind as value, likewise the name key with its Name; a controller key never holds
the empty string; and the output depends on the owner references only through
those that have the controller flag set. -/
theorem C9_controller_selection (p : Pod) :
    getPodController p.Metadata.OwnerReferences
        = p.Metadata.OwnerReferences.toList.find? (fun o => o.Controller) ∧
      (∀ m ∈ (p.appendTargetLabels Slice.nil).toList,
        m "__meta_kubernetes_pod_controller_kind"
          = (match getPodController p.Metadata.OwnerReferences with
            | some o => if o.Kind = "" then none else some o.Kind
            | none => none) ∧
        m "__meta_kubernetes_pod_controller_name"
          = (match getPodController p.Metadata.OwnerReferences with
            | some o => if o.Name = "" then none else some o.Name
            | none => none) ∧
        m "__meta_kubernetes_pod_controller_kind" ≠ some "" ∧
        m "__meta_kubernetes_pod_controller_name" ≠ some "") ∧
      (∀ ors : Slice OwnerReference,
        ors.toList.filter (fun o => o.Controller)
            = p.Metadata.OwnerReferences.toList.filter (fun o => o.Controller) →
        (p.withOwnerReferences ors).appendTargetLabels Slice.nil
          = p.appendTargetLabels Slice.nil) := by
  refine ⟨getPodControllerLoop_eq_find _, ?_, ?_⟩
  · intro m hm
    obtain ⟨c, cp, isInit, rfl⟩ := mem_appendTargetLabels p m hm
    obtain ⟨hk, hn⟩ := getPodLabels_controller p c cp isInit
    rw [hk, hn]
    refine ⟨?_, ?_, controllerEntry_ne_empty _, controllerEntry_ne_empty _⟩
    · cases getPodController p.Metadata.OwnerReferences <;> rfl
    · cases getPodController p.Metadata.OwnerReferences <;> rfl
  · intro ors hf
    apply appendTargetLabels_withOwnerReferences
    unfold getPodController
    rw [← getPodControllerLoop_filter ors.toList, hf, getPodControllerLoop_filter]

theorem C9_controller_selection_witness :
    getPodController exPodTwoOwners.Metadata.OwnerReferences
        = some { Name := "rs-1", Controller := true, Kind := "ReplicaSet" } ∧
      (exPodTwoOwners.withOwnerReferences
          (Slice.mk [{ Name := "rs-1", Controller := true, Kind := "ReplicaSet" }])).appendTargetLabels
          Slice.nil
        = exPodTwoOwners.appendTargetLabels Slice.nil :=
  ⟨(C9_controller_selection exPodTwoOwners).1,
    (C9_controller_selection exPodTwoOwners).2.2 _ rfl⟩

/-! ## Claims about the watch-action translation -/

/-- C10: processPods sends exactly one event on the section's channel, and reports
no warning, when the action is "ADDED", "MODIFIED" or "DELETED"; it sends no event
and reports no warning when the action is "ERROR"; for every other action it sends
no event and reports exactly one warning, `unexpected action: ` followed by the
action. -/
theorem C10_events_and_warnings (cfg : apiConfig) (p : Pod) (action : String)
    (log : List String) :
    ((action = "ADDED" ∨ action = "MODIFIED" ∨ action = "DELETED") →
      ∃ ev, (processPods cfg p action log).1.targetChan = cfg.targetChan ++ [ev] ∧
        (processPods cfg p action log).1.setName = cfg.setName ∧
        (processPods cfg p action log).2 = log) ∧
    (action = "ERROR" → processPods cfg p action log = (cfg, log)) ∧
    ((action ≠ "ADDED" ∧ action ≠ "MODIFIED" ∧ action ≠ "DELETED" ∧ action ≠ "ERROR") →
      (processPods cfg p action log).1 = cfg ∧
        (processPods cfg p action log).2 = log ++ ["unexpected action: " ++ action]) := by
  refine ⟨?_, ?_, ?_⟩
  · rintro (h | h | h) <;> subst h
    · exact ⟨_, rfl, rfl, rfl⟩
    · exact ⟨_, rfl, rfl, rfl⟩
    · exact ⟨_, rfl, rfl, rfl⟩
  · rintro rfl
    rfl
  · rintro ⟨h₁, h₂, h₃, h₄⟩
    simp [processPods, h₁, h₂, h₃, h₄, Warnf]

theorem C10_events_and_warnings_witness :
    (processPods exCfg exPod "ADDED" []).1.targetChan.length = 2 ∧
      (processPods exCfg exPod "ADDED" []).2 = [] ∧
      processPods exCfg exPod "ERROR" [] = (exCfg, []) ∧
      (processPods exCfg exPod "BOOKMARK" []).1 = exCfg ∧
      (processPods exCfg exPod "BOOKMARK" []).2 = ["unexpected action: BOOKMARK"] := by
  have h := C10_events_and_warnings exCfg exPod
  obtain ⟨ev, hev, _, hlog⟩ := (h "ADDED" []).1 (Or.inl rfl)
  refine ⟨?_, hlog, (h "ERROR" []).2.1 rfl, ?_⟩
  · rw [hev]
    rfl
  · exact (h "BOOKMARK" []).2.2 (by decide)

/-! ## Claims about the emitted events -/

/-- C11: the event processPods emits for "ADDED" is the one it emits for
"MODIFIED" (the whole outcome is the same), and it has Labels =
p.appendTargetLabels(nil), Key = buildSyncKey("pods", s, namespace + "/" + name)
and ConfigSectionSet = s, for s the section's name. For the scenario pod the one
event holds a single label set, with `__address__` = "10.0.0.5:80" and
`__meta_kubernetes_pod_container_init` = "false". -/
theorem C11_upsert_event (cfg : apiConfig) (p : Pod) (log : List String) :
    processPods cfg p "ADDED" log = processPods cfg p "MODIFIED" log ∧
      sentEvents cfg (processPods cfg p "ADDED" log).1
        = [{ Labels := p.appendTargetLabels Slice.nil
             Key := buildSyncKey "pods" cfg.setName
               (p.Metadata.Namespace ++ "/" ++ p.Metadata.Name)
             ConfigSectionSet := cfg.setName }] ∧
      (sentEvents exCfg (processPods exCfg exPod "ADDED" []).1).map
          (fun ev => ev.Labels.toList.map
            (fun m => (m "__address__", m "__meta_kubernetes_pod_container_init")))
        = [[(some "10.0.0.5:80", some "false")]] := by
  refine ⟨rfl, sentEvents_upsert cfg p "ADDED" log (Or.inl rfl), ?_⟩
  rw [sentEvents_upsert exCfg exPod "ADDED" [] (Or.inl rfl)]
  decide

/-- C12: for two pods with the same namespace and the same name, whatever their
other fields, the event emitted for "DELETED" on the one has nil Labels and the
Key and ConfigSectionSet of the event emitted for "ADDED" or "MODIFIED" on the
other; the key is buildSyncKey("pods", section name, namespace + "/" + name). -/
theorem C12_tombstone_matches_upsert (cfg : apiConfig) (p q : Pod) (log : List String)
    (hns : p.Metadata.Namespace = q.Metadata.Namespace)
    (hname : p.Metadata.Name = q.Metadata.Name) :
    sentEvents cfg (processPods cfg q "DELETED" log).1
        = [{ Labels := Slice.nil
             Key := buildSyncKey "pods" cfg.setName
               (p.Metadata.Namespace ++ "/" ++ p.Metadata.Name)
             ConfigSectionSet := cfg.setName }] ∧
      (∀ action, action = "ADDED" ∨ action = "MODIFIED" →
        sentEvents cfg (processPods cfg p action log).1
          = [{ Labels := p.appendTargetLabels Slice.nil
               Key := buildSyncKey "pods" cfg.setName
                 (p.Metadata.Namespace ++ "/" ++ p.Metadata.Name)
               ConfigSectionSet := cfg.setName }]) := by
  refine ⟨?_, fun action h => sentEvents_upsert cfg p action log h⟩
  rw [sentEvents_deleted, Pod.key, ← hns, ← hname]

theorem C12_tombstone_matches_upsert_witness :
    exPod ≠ exPodSameIdentity ∧
      (sentEvents exCfg (processPods exCfg exPodSameIdentity "DELETED" []).1).map
          (fun ev => (ev.Key, ev.ConfigSectionSet))
        = (sentEvents exCfg (processPods exCfg exPod "ADDED" []).1).map
          (fun ev => (ev.Key, ev.ConfigSectionSet)) := by
  have h := C12_tombstone_matches_upsert exCfg exPod exPodSameIdentity [] rfl rfl
  refine ⟨by decide, ?_⟩
  rw [h.1, h.2 "ADDED" (Or.inl rfl)]
  rfl

/-- C13, as stated, fails: a pod without an address gets nil Labels in its "ADDED"
event, which is then equal to its "DELETED" event. -/
theorem C13_labels_presence_counterexample :
    exPodNoIP.Spec.Containers.len = 1 ∧
      sentEvents exCfg (processPods exCfg exPodNoIP "ADDED" []).1 = [upsertEvent exCfg exPodNoIP] ∧
      sentEvents exCfg (processPods exCfg exPodNoIP "DELETED" []).1
        = [tombstoneEvent exCfg exPodNoIP] ∧
      (upsertEvent exCfg exPodNoIP).Labels = Slice.nil ∧
      upsertEvent exCfg exPodNoIP = tombstoneEvent exCfg exPodNoIP :=
  ⟨rfl, sentEvents_upsert exCfg exPodNoIP "ADDED" [] (Or.inl rfl),
    sentEvents_deleted exCfg exPodNoIP [], rfl, rfl⟩

/-- C13, amended: the event emitted for "DELETED" has Labels absent; the event
emitted for "ADDED" or "MODIFIED" has non-nil Labels exactly when the pod has a
non-empty PodIP and at least one regular or init container, and exactly then it
differs from the tombstone event of the same pod. -/
theorem C13_labels_presence_amended (cfg : apiConfig) (p : Pod) (log : List String) :
    (∀ action, action = "ADDED" ∨ action = "MODIFIED" →
        sentEvents cfg (processPods cfg p action log).1 = [upsertEvent cfg p]) ∧
      sentEvents cfg (processPods cfg p "DELETED" log).1 = [tombstoneEvent cfg p] ∧
      (tombstoneEvent cfg p).Labels = Slice.nil ∧
      ((upsertEvent cfg p).Labels ≠ Slice.nil ↔
        (p.Status.PodIP ≠ "" ∧
          (p.Spec.Containers.len ≠ 0 ∨ p.Spec.InitContainers.len ≠ 0))) ∧
      (upsertEvent cfg p ≠ tombstoneEvent cfg p ↔
        (p.Status.PodIP ≠ "" ∧
          (p.Spec.Containers.len ≠ 0 ∨ p.Spec.InitContainers.len ≠ 0))) := by
  have hiff : (upsertEvent cfg p).Labels ≠ Slice.nil ↔
      (p.Status.PodIP ≠ "" ∧
        (p.Spec.Containers.len ≠ 0 ∨ p.Spec.InitContainers.len ≠ 0)) := by
    show p.appendTargetLabels Slice.nil ≠ Slice.nil ↔ _
    rw [Ne, appendTargetLabels_nil_iff]
    tauto
  refine ⟨fun action h => sentEvents_upsert cfg p action log h, sentEvents_deleted cfg p log,
    rfl, hiff, ?_⟩
  rw [← hiff]
  constructor
  · intro hne hl
    apply hne
    show ({ Labels := p.appendTargetLabels Slice.nil, Key := _, ConfigSectionSet := _ }
      : SyncEvent) = _
    have hl2 : p.appendTargetLabels Slice.nil = Slice.nil := hl
    rw [hl2]
    rfl
  · intro hl he
    exact hl (congrArg SyncEvent.Labels he)

theorem C13_labels_presence_amended_witness :
    (upsertEvent exCfg exPod).Labels ≠ Slice.nil ∧
      upsertEvent exCfg exPod ≠ tombstoneEvent exCfg exPod ∧
      (upsertEvent exCfg exPodNoContainers).Labels = Slice.nil :=
  ⟨(C13_labels_presence_amended exCfg exPod []).2.2.2.1.mpr ⟨by decide, Or.inl (by decide)⟩,
    (C13_labels_presence_amended exCfg exPod []).2.2.2.2.mpr ⟨by decide, Or.inl (by decide)⟩,
    rfl⟩

/-- C14: for two pods whose namespaces do not contain "/", Pod.key() of the two is
equal if and only if their namespaces and their names are equal; hence within one
section the sync keys of two pods with distinct (namespace, name) differ. -/
theorem C14_key_identifies_pod (p q : Pod) (hp : '/' ∉ p.Metadata.Namespace.data)
    (hq : '/' ∉ q.Metadata.Namespace.data) :
    (p.key = q.key ↔
        (p.Metadata.Namespace = q.Metadata.Namespace ∧ p.Metadata.Name = q.Metadata.Name)) ∧
      (∀ setName : String,
        ¬ (p.Metadata.Namespace = q.Metadata.Namespace ∧ p.Metadata.Name = q.Metadata.Name) →
        buildSyncKey "pods" setName p.key ≠ buildSyncKey "pods" setName q.key) := by
  have h := key_eq_iff p q hp hq
  refine ⟨h, ?_⟩
  intro setName hne he
  exact hne (h.mp ((buildSyncKey_eq_iff _ _ _ _).mp he))

theorem C14_key_identifies_pod_witness :
    exPod ≠ exPodSameIdentity ∧ exPod.key = exPodSameIdentity.key ∧
      buildSyncKey "pods" "sectionA" exPod.key
        ≠ buildSyncKey "pods" "sectionA"
            ({ exPod with Metadata := exMeta "ns" "other" } : Pod).key :=
  ⟨by decide,
    (C14_key_identifies_pod exPod exPodSameIdentity (by decide) (by decide)).1.mpr ⟨rfl, rfl⟩,
    (C14_key_identifies_pod exPod { exPod with Metadata := exMeta "ns" "other" } (by decide)
      (by decide)).2 "sectionA" (by decide)⟩

/-- C16: appendTargetLabels only appends: the elements of p.appendTargetLabels(ms)
are those of ms, unchanged and in order, followed by those of
p.appendTargetLabels(nil), which do not depend on ms; the result is the nil slice
only when ms is nil and nothing is appended. -/
theorem C16_append_only (p : Pod) (ms : Slice StrMap) :
    (p.appendTargetLabels ms).toList = ms.toList ++ (p.appendTargetLabels Slice.nil).toList ∧
      (p.appendTargetLabels ms).toList.take ms.len = ms.toList ∧
      (p.appendTargetLabels ms).toList.drop ms.len = (p.appendTargetLabels Slice.nil).toList ∧
      (p.appendTargetLabels ms = Slice.nil ↔
        (ms = Slice.nil ∧ p.appendTargetLabels Slice.nil = Slice.nil)) := by
  have h := appendTargetLabels_toList_all p ms
  refine ⟨h, ?_, ?_, appendTargetLabels_eq_nil_iff p ms⟩
  · rw [h]
    exact List.take_left' rfl
  · rw [h]
    exact List.drop_left' rfl

/-! ## Claims about decoding -/

/-- C15: parsePodList is all-or-nothing: when JSON decoding succeeds it returns the
pod list and no error; when decoding fails it returns no pod list and an error that
wraps the decoding error and whose message contains the quoted payload; it never
returns both a list and an error, and never neither. -/
theorem C15_parsePodList_all_or_nothing {listMetadata E : Type} (lib : JSONLib listMetadata E)
    (data : Bytes) :
    ((lib.Unmarshal data).2 = none →
        parsePodList lib data = (some (lib.Unmarshal data).1, none)) ∧
      (∀ err, (lib.Unmarshal data).2 = some err →
        parsePodList lib data
          = (none, some
              { msg := "cannot unmarshal PodList from " ++ lib.Quote data ++ ": "
                  ++ lib.Error err
                Unwrap := err })) ∧
      ((parsePodList lib data).1.isSome = true ↔ (parsePodList lib data).2 = none) ∧
      (∀ e, (parsePodList lib data).2 = some e →
        (parsePodList lib data).1 = none ∧ (lib.Unmarshal data).2 = some e.Unwrap ∧
          ∃ pre post, e.msg = pre ++ lib.Quote data ++ post) := by
  unfold parsePodList
  rcases hU : lib.Unmarshal data with ⟨pl, _ | err⟩
  · simp
  · refine ⟨by simp, by simp, by simp, ?_⟩
    intro e he
    simp only [Option.some.injEq] at he
    subst he
    exact ⟨rfl, rfl, "cannot unmarshal PodList from ", ": " ++ lib.Error err, by
      simp [String.append_assoc]⟩

theorem C15_parsePodList_all_or_nothing_witness :
    (parsePodList exLib [123]).1 = none ∧
      (parsePodList exLib [123]).2.map (fun e => (e.msg, e.Unwrap))
        = some ("cannot unmarshal PodList from \"\x7b\": unexpected end of JSON input",
            "unexpected end of JSON input") ∧
      (parsePodList exLib [123, 125]).1.map (fun pl => pl.Items.len) = some 0 ∧
      (parsePodList exLib [123, 125]).2.isNone = true := by
  have h₁ := (C15_parsePodList_all_or_nothing exLib [123]).2.1 _ rfl
  have h₂ := (C15_parsePodList_all_or_nothing exLib [123, 125]).1 rfl
  rw [h₁, h₂]
  exact ⟨rfl, by decide, rfl, rfl⟩

end Kubernetes

namespace Parser

/-! ## Claims about the push-gateway parser -/

set_option maxRecDepth 100000 in
theorem decodeMap_encodeChar : ∀ v, v < 64 → decodeMap (encodeChar v) = some v := by
  decide

theorem alphabet_safe : ∀ c ∈ encodeURL.data, c ≠ '=' ∧ c ≠ '\n' ∧ c ≠ '\r' := by
  decide


theorem encodeChar_mem (v : Nat) : encodeChar v ∈ encodeURL.data := by
  unfold encodeChar
  by_cases h : v < encodeURL.data.length
  · rw [List.getD_eq_getElem _ _ h]
    exact List.getElem_mem _
  · rw [List.getD_eq_default _ _ (Nat.le_of_not_lt h)]
    decide

theorem encodeQuanta_mem (b : Kubernetes.Bytes) : ∀ c ∈ encodeQuanta b, c ∈ encodeURL.data := by
  induction b using encodeQuanta.induct with
  | case1 b0 b1 b2 rest ih =>
    intro c hc
    simp only [encodeQuanta, List.mem_cons] at hc
    rcases hc with h | h | h | h | h
    · exact h ▸ encodeChar_mem _
    · exact h ▸ encodeChar_mem _
    · exact h ▸ encodeChar_mem _
    · exact h ▸ encodeChar_mem _
    · exact ih c h
  | case2 b0 b1 =>
    intro c hc
    simp only [encodeQuanta, List.mem_cons, List.mem_singleton, List.not_mem_nil, or_false] at hc
    rcases hc with h | h | h <;> exact h ▸ encodeChar_mem _
  | case3 b0 =>
    intro c hc
    simp only [encodeQuanta, List.mem_cons, List.mem_singleton, List.not_mem_nil, or_false] at hc
    rcases hc with h | h <;> exact h ▸ encodeChar_mem _
  | case4 => simp [encodeQuanta]

theorem decodeQuanta_encodeQuanta (b : Kubernetes.Bytes) (hb : ∀ x ∈ b, x < 256) :
    decodeQuanta (encodeQuanta b) = (b, none) := by
  induction b using encodeQuanta.induct with
  | case1 b0 b1 b2 rest ih =>
    have h0 : b0 < 256 := hb b0 (by simp)
    have h1 : b1 < 256 := hb b1 (by simp)
    have h2 : b2 < 256 := hb b2 (by simp)
    have hr := ih (fun x hx => hb x (by simp [hx]))
    simp only [encodeQuanta, decodeQuanta,
      decodeMap_encodeChar _ (Nat.mod_lt _ (by decide : 0 < 64)), hr]
    simp only [Prod.mk.injEq, List.cons.injEq, and_true]
    refine ⟨?_, ?_, ?_⟩ <;> omega
  | case2 b0 b1 =>
    have h0 : b0 < 256 := hb b0 (by simp)
    have h1 : b1 < 256 := hb b1 (by simp)
    simp only [encodeQuanta, decodeQuanta,
      decodeMap_encodeChar _ (Nat.mod_lt _ (by decide : 0 < 64))]
    simp only [Prod.mk.injEq, List.cons.injEq, and_true]
    refine ⟨?_, ?_⟩ <;> omega
  | case3 b0 =>
    have h0 : b0 < 256 := hb b0 (by simp)
    simp only [encodeQuanta, decodeQuanta,
      decodeMap_encodeChar _ (Nat.mod_lt _ (by decide : 0 < 64))]
    simp only [Prod.mk.injEq, List.cons.injEq, and_true]
    omega
  | case4 => rfl

theorem filter_encodeQuanta (b : Kubernetes.Bytes) :
    (encodeQuanta b).filter (fun c => c ≠ '\n' ∧ c ≠ '\r') = encodeQuanta b := by
  rw [List.filter_eq_self]
  intro c hc
  have h := alphabet_safe c (encodeQuanta_mem b c hc)
  simp [h.2.1, h.2.2]

theorem rdropWhile_append_replicate (q : Char → Bool) (l : List Char) (a : Char)
    (ha : q a = true) (n : Nat) :
    (l ++ List.replicate n a).rdropWhile q = l.rdropWhile q := by
  induction n with
  | zero => simp
  | succ n ih =>
    rw [List.replicate_succ', ← List.append_assoc, List.rdropWhile_concat_pos _ _ _ ha, ih]

theorem TrimRight_append_pad (s : String) (n : Nat) :
    TrimRight (s ++ String.mk (List.replicate n '=')) "=" = TrimRight s "=" := by
  unfold TrimRight
  rw [String.data_append]
  exact congrArg String.mk (rdropWhile_append_replicate _ _ '=' (by decide) n)

theorem TrimRight_EncodeToString (b : Kubernetes.Bytes) :
    TrimRight (EncodeToString b) "=" = EncodeToString b := by
  unfold TrimRight EncodeToString
  apply congrArg String.mk
  rw [List.rdropWhile_eq_self_iff]
  intro hl
  have h := alphabet_safe _ (encodeQuanta_mem b _ (List.getLast_mem hl))
  simp [h.1]

/-- C17: decodeBase64 decodes URL-safe base64 and ignores padding: applied to the
unpadded URL-safe encoding of a byte string b, and to that encoding followed by any
number of `=`, it returns b and no error; and for every string s it gives the same
result on s and on s followed by any number of `=`. -/
theorem C17_decodeBase64_ignores_padding (b : Kubernetes.Bytes) (hb : ∀ x ∈ b, x < 256) (s : String)
    (n : Nat) :
    decodeBase64 (EncodeToString b) = (b, none) ∧
      decodeBase64 (EncodeToString b ++ String.mk (List.replicate n '=')) = (b, none) ∧
      decodeBase64 (s ++ String.mk (List.replicate n '=')) = decodeBase64 s := by
  have hpad : ∀ t : String,
      decodeBase64 (t ++ String.mk (List.replicate n '=')) = decodeBase64 t := by
    intro t
    unfold decodeBase64
    rw [TrimRight_append_pad]
  have henc : decodeBase64 (EncodeToString b) = (b, none) := by
    unfold decodeBase64 DecodeString
    rw [TrimRight_EncodeToString]
    show decodeQuanta ((encodeQuanta b).filter _) = _
    rw [filter_encodeQuanta, decodeQuanta_encodeQuanta b hb]
  exact ⟨henc, by rw [hpad, henc], hpad s⟩

theorem C17_decodeBase64_ignores_padding_witness :
    EncodeToString [104, 105] = "aGk" ∧
      decodeBase64 "aGk" = ([104, 105], none) ∧
      decodeBase64 ("aGk" ++ "==") = ([104, 105], none) ∧
      decodeBase64 ("a=b" ++ "==") = decodeBase64 "a=b" ∧
      decodeBase64 "a=b" = ([], some CorruptInputError.corrupt) :=
  ⟨by decide, (C17_decodeBase64_ignores_padding [104, 105] (by decide) "a=b" 2).1,
    (C17_decodeBase64_ignores_padding [104, 105] (by decide) "a=b" 2).2.1,
    (C17_decodeBase64_ignores_padding [104, 105] (by decide) "a=b" 2).2.2, by decide⟩

end Parser

namespace Pushgateway

/-- C18: the push-based ingestion endpoint is inert: ParseStream returns no error
and never invokes the callback (a callback that counts its invocations still
counts none, and the state is left as it was whatever the callback does), and
insertRows returns no error and changes nothing for every label map and
extra-label list; so the handler, when the limiter runs its function once, returns
no error and leaves the state as it was. -/
theorem C18_push_endpoint_inert {Request Label σ E : Type} (req : Request)
    (callback : Kubernetes.StrMap → σ → Option E × σ) (st : σ) (labels : Kubernetes.StrMap)
    (extraLabels : Kubernetes.Slice Label) :
    Parser.ParseStream req callback st = (none, st) ∧
      (Parser.ParseStream req (fun _ n => (none, n + 1)) 0 : Option E × Nat) = (none, 0) ∧
      (insertRows labels extraLabels st : Option E × σ) = (none, st) ∧
      (InsertHandler Label (fun f s => f s) req st : Option E × σ) = (none, st) :=
  ⟨rfl, rfl, rfl, rfl⟩

end Pushgateway
